import Mathlib

/-!
Verification of the cloud-os storage proxy and image-transform pipeline.

Strings from the TypeScript source are modelled as `List Char`; each
definition embeds one expression or function of the source, named after it.
-/

namespace CloudOS

abbrev Str := List Char

/-- Embeds the listing-path normalization of `BunnyAPI.listFiles` /
`files/route.ts GET`:
`path === '/' ? '' : path.startsWith('/') ? path.substring(1) : path`. -/
def normalizePath (path : Str) : Str :=
  if path = ['/'] then []
  else if path.head? = some '/' then path.tail
  else path

/-- Embeds the upstream suffix used by the list operations:
`` `${normalizedPath}${normalizedPath ? '/' : ''}` `` (a trailing `/` is
appended whenever the normalized path is a non-empty — truthy — string). -/
def listSuffix (path : Str) : Str :=
  normalizePath path ++ (if normalizePath path = [] then [] else ['/'])

/-- Embeds the path normalization of `BunnyAPI.downloadFile`,
`BunnyAPI.deleteFile`, `download/route.ts GET` and `files/route.ts DELETE`:
`path.startsWith('/') ? path.substring(1) : path`. -/
def fileSuffix (path : Str) : Str :=
  if path.head? = some '/' then path.tail else path

/-- Holds when the string contains two consecutive `'/'` characters. -/
def hasDoubleSlash : Str → Bool
  | [] => false
  | [_] => false
  | a :: b :: rest => (a = '/' && b = '/') || hasDoubleSlash (b :: rest)

/-- Last character of a string, `none` on the empty string. -/
def lastChar? : Str → Option Char
  | [] => none
  | [a] => some a
  | _ :: b :: rest => lastChar? (b :: rest)

theorem hasDoubleSlash_tail {p : Str} (h : hasDoubleSlash p = false) :
    hasDoubleSlash p.tail = false := by
  match p with
  | [] => simp [hasDoubleSlash]
  | [a] => simp [hasDoubleSlash]
  | a :: b :: rest =>
    simp only [hasDoubleSlash, Bool.or_eq_false_iff] at h
    exact h.2

theorem lastChar?_cons_cons (a b : Char) (rest : Str) :
    lastChar? (a :: b :: rest) = lastChar? (b :: rest) := rfl

theorem lastChar?_tail {p : Str} (hne : p.tail ≠ []) :
    lastChar? p.tail = lastChar? p := by
  match p with
  | [] => simp at hne
  | [a] => simp at hne
  | a :: b :: rest => rfl

theorem hasDoubleSlash_append_slash :
    ∀ p : Str, hasDoubleSlash p = false → lastChar? p ≠ some '/' →
      hasDoubleSlash (p ++ ['/']) = false
  | [], _, _ => rfl
  | [a], _, hl => by
    simp only [lastChar?, ne_eq, Option.some.injEq] at hl
    simp [hasDoubleSlash, hl]
  | a :: b :: rest, h, hl => by
    simp only [hasDoubleSlash, Bool.or_eq_false_iff] at h
    have ih := hasDoubleSlash_append_slash (b :: rest) h.2 hl
    simp only [List.cons_append, hasDoubleSlash, Bool.or_eq_false_iff]
    exact ⟨h.1, by simpa using ih⟩

/-- The function `normalizePath` either leaves the path unchanged or removes exactly
its leading `'/'`. -/
theorem normalizePath_cases (p : Str) :
    normalizePath p = p ∨ (p.head? = some '/' ∧ normalizePath p = p.tail) := by
  cases p with
  | nil => left; rfl
  | cons c t =>
    by_cases hc : c = '/'
    · subst hc
      right
      refine ⟨rfl, ?_⟩
      by_cases ht : t = []
      · subst ht; simp [normalizePath]
      · simp [normalizePath, ht]
    · left
      have h1 : c :: t ≠ ['/'] := by simp [hc]
      simp [normalizePath, h1, hc]

/-- The function `normalizePath` strips at most one leading slash: the result is the
input itself, or the input is `'/'` followed by the result. -/
theorem normalizePath_strips_at_most_one (p : Str) :
    normalizePath p = p ∨ p = '/' :: normalizePath p := by
  rcases normalizePath_cases p with h | ⟨hh, ht⟩
  · exact Or.inl h
  · right
    cases p with
    | nil => simp at hh
    | cons c t =>
      simp only [List.head?_cons, Option.some.injEq] at hh
      subst hh
      rw [ht]
      rfl

theorem normalizePath_no_double_slash {p : Str}
    (h : hasDoubleSlash p = false) :
    hasDoubleSlash (normalizePath p) = false := by
  rcases normalizePath_cases p with he | ⟨_, he⟩
  · rwa [he]
  · rw [he]
    exact hasDoubleSlash_tail h

theorem normalizePath_lastChar {p : Str}
    (hne : normalizePath p ≠ []) :
    lastChar? (normalizePath p) = lastChar? p := by
  rcases normalizePath_cases p with he | ⟨_, he⟩
  · rw [he]
  · rw [he]
    apply lastChar?_tail
    rw [← he]; exact hne

theorem listSuffix_of_ne_nil {p : Str} (hne : normalizePath p ≠ []) :
    listSuffix p = normalizePath p ++ ['/'] := by
  simp [listSuffix, hne]

/-- C1 counterexample: on the path `"/a/b/"` the listing suffix computed by
the code is `"a/b//"`, which contains a double slash and differs from the
claimed `"a/b/"`. -/
theorem c1_counterexample :
    listSuffix ("/a/b/".toList) = "a/b//".toList ∧
    hasDoubleSlash (listSuffix ("/a/b/".toList)) = true ∧
    listSuffix ("/a/b/".toList) ≠ "a/b/".toList := by
  refine ⟨by decide, by decide, by decide⟩

/-- C1 (amended): the listing-path normalization strips at most one leading
`'/'`; the suffix for `"/"` is empty and the suffix for `"/a/b"` is
`"a/b/"`; however the suffix for `"/a/b/"` is `"a/b//"`, and the suffix is
free of double slashes only when the input contains none and does not end
in `'/'`. -/
theorem c1_listSuffix_normalization :
    (∀ p : Str, normalizePath p = p ∨ p = '/' :: normalizePath p) ∧
    listSuffix ['/'] = [] ∧
    listSuffix ("/a/b".toList) = "a/b/".toList ∧
    listSuffix ("/a/b/".toList) = "a/b//".toList ∧
    (∀ p : Str, hasDoubleSlash p = false → lastChar? p ≠ some '/' →
      hasDoubleSlash (listSuffix p) = false) := by
  refine ⟨normalizePath_strips_at_most_one, by decide, by decide, by decide, ?_⟩
  intro p h hl
  by_cases hne : normalizePath p = []
  · simp [listSuffix, hne]; rfl
  · rw [listSuffix_of_ne_nil hne]
    exact hasDoubleSlash_append_slash (normalizePath p)
      (normalizePath_no_double_slash h)
      (by rw [normalizePath_lastChar hne]; exact hl)

/-- Witness for C1 at the concrete path `"/x/y"`. -/
theorem c1_witness :
    hasDoubleSlash (listSuffix ("/x/y".toList)) = false :=
  c1_listSuffix_normalization.2.2.2.2 ("/x/y".toList) (by decide) (by decide)

/-! ## Connection model (`types/bunny.ts`, `BunnyAPI`) -/

/-- Embeds the `BunnyConnection` interface of `types/bunny.ts`. -/
structure BunnyConnection where
  host : Str
  user : Str
  password : Str
  port : Nat
  url : Str
  apiKey : Option Str
  libraryId : Option Str
deriving DecidableEq

/-- Embeds the regex replace `host.replace(/^https?:\/\//, '')`: one
anchored protocol occurrence is removed, anything else is untouched. -/
def stripProtocol (s : Str) : Str :=
  if List.isPrefixOf ("https://".toList) s then s.drop 8
  else if List.isPrefixOf ("http://".toList) s then s.drop 7
  else s

/-- Embeds `BunnyAPI.getBaseUrl`:
`` `https://${cleanHost}/${user}/` `` with
`host = this.connection.host || 'storage.bunnycdn.com'`. -/
def getBaseUrl (c : BunnyConnection) : Str :=
  let host := if c.host = [] then "storage.bunnycdn.com".toList else c.host
  "https://".toList ++ stripProtocol host ++ ['/'] ++ c.user ++ ['/']

/-- Request headers sent by `BunnyAPI.getHeaders`. -/
structure Headers where
  accessKey : Str
  contentType : Str
  accept : Str
deriving DecidableEq

/-- Embeds `BunnyAPI.getHeaders`. -/
def getHeaders (c : BunnyConnection) : Headers :=
  { accessKey := c.password
    contentType := "application/json".toList
    accept := "application/json".toList }

/-! ## Upstream HTTP outcomes (axios behavior)

axios resolves exactly for `200 <= status < 300` (its default
`validateStatus`); otherwise it rejects with `error.response` carrying the
status and status text.  A request that reaches the wire but gets no
response rejects with `error.request` only; a failure to set the request up
rejects with only `error.message`. -/

inductive UpstreamOutcome where
  | response (status : Nat) (statusText : Str)
  | noResponse
  | setupError (message : Str)
deriving DecidableEq

/-- Messages of `BunnyAPI.testConnection` and the connection-test route. -/
def authFailedMsg : Str :=
  "Authentication failed. Please check your Access Key (password).".toList

def zoneNotFoundMsg : Str :=
  "Storage zone not found. Please check your User (storage zone name).".toList

/-- Embeds `` `Server error: ${status} ${statusText}` ``. -/
def serverErrorMsg (status : Nat) (statusText : Str) : Str :=
  "Server error: ".toList ++ Nat.toDigits 10 status ++ [' '] ++ statusText

def libNetworkMsg : Str :=
  ("No response from server. This might be a CORS or network issue. " ++
    "Check your network connection.").toList

def routeNetworkMsg : Str :=
  "No response from server. Check your network connection and credentials.".toList

def connectionFailedMsg : Str := "Connection failed".toList

structure ConnTestResult where
  success : Bool
  error? : Option Str
deriving DecidableEq

/-- Embeds `BunnyAPI.testConnection`: resolves to
`{ success: response.status === 200 }`, and in the catch branch maps 401,
404, other response statuses, missing response, and setup errors to their
messages. -/
def testConnection (o : UpstreamOutcome) : ConnTestResult :=
  match o with
  | .response s txt =>
    if 200 ≤ s ∧ s < 300 then { success := s == 200, error? := none }
    else
      { success := false
        error? := some (if s = 401 then authFailedMsg
                        else if s = 404 then zoneNotFoundMsg
                        else serverErrorMsg s txt) }
  | .noResponse => { success := false, error? := some libNetworkMsg }
  | .setupError m =>
    { success := false
      error? := some (if m = [] then connectionFailedMsg else m) }

theorem serverErrorMsg_head (s : Nat) (txt : Str) :
    (serverErrorMsg s txt).head? = some 'S' := by
  have h : "Server error: ".toList = 'S' :: "erver error: ".toList := by decide
  simp only [serverErrorMsg]
  rw [h]
  simp

theorem serverErrorMsg_second (s : Nat) (txt : Str) :
    (serverErrorMsg s txt).tail.head? = some 'e' := by
  have h : "Server error: ".toList = 'S' :: 'e' :: "rver error: ".toList := by
    decide
  simp only [serverErrorMsg]
  rw [h]
  simp

theorem serverErrorMsg_ne_auth (s : Nat) (txt : Str) :
    serverErrorMsg s txt ≠ authFailedMsg := by
  intro h
  have h1 := serverErrorMsg_head s txt
  rw [h] at h1
  have h2 : authFailedMsg.head? = some 'A' := by decide
  rw [h2] at h1
  exact absurd (Option.some.inj h1) (by decide)

theorem serverErrorMsg_ne_zone (s : Nat) (txt : Str) :
    serverErrorMsg s txt ≠ zoneNotFoundMsg := by
  intro h
  have h1 := serverErrorMsg_second s txt
  rw [h] at h1
  have h2 : zoneNotFoundMsg.tail.head? = some 't' := by decide
  rw [h2] at h1
  exact absurd (Option.some.inj h1) (by decide)

/-! ## Library operation URLs (`BunnyAPI`) -/

/-- URL of `BunnyAPI.listFiles`:
`` `${baseUrl}${normalizedPath}${normalizedPath ? '/' : ''}` ``. -/
def libListUrl (c : BunnyConnection) (path : Str) : Str :=
  getBaseUrl c ++ listSuffix path

/-- URL of `BunnyAPI.uploadFile`:
`` `${this.getBaseUrl()}${normalizedPath}${file.name}` ``. -/
def libUploadUrl (c : BunnyConnection) (path fileName : Str) : Str :=
  getBaseUrl c ++ normalizePath path ++ fileName

/-- URL of `BunnyAPI.deleteFile`:
`` `${this.getBaseUrl()}${normalizedPath}` ``. -/
def libDeleteUrl (c : BunnyConnection) (path : Str) : Str :=
  getBaseUrl c ++ fileSuffix path

/-- URL of `BunnyAPI.downloadFile`:
`` `${this.getBaseUrl()}${normalizedPath}` ``. -/
def libDownloadUrl (c : BunnyConnection) (path : Str) : Str :=
  getBaseUrl c ++ fileSuffix path

/-! ## API route models

Each route is a function from its request fields (each an `Option Str`,
`none` for an absent query/form field) and the upstream outcome to the pair
of the upstream URL requested (`none` when no upstream call is made) and
the HTTP response produced. -/

/-- JavaScript string falsiness of a nullable field: `!s` holds for a
missing field and for the empty string. -/
def falsy : Option Str → Bool
  | none => true
  | some s => s.isEmpty

/-- Embeds `searchParams.get('path') || '/'` (also used for the form field). -/
def orRootPath : Option Str → Str
  | none => ['/']
  | some s => if s = [] then ['/'] else s

/-- Base URL built by every route:
`` `https://${cleanHost}/${user}/` `` (no host defaulting here, unlike
`BunnyAPI.getBaseUrl`). -/
def routeBaseUrl (host user : Str) : Str :=
  "https://".toList ++ stripProtocol host ++ ['/'] ++ user ++ ['/']

def missingFieldsMsg : Str := "Missing required fields".toList

/-- Embeds `` `${opFailText}: ${status} ${statusText}` `` as interpolated in the
route catch branches. -/
def routeFailMsg (opFailText : Str) (status : Nat) (statusText : Str) : Str :=
  opFailText ++ ": ".toList ++ Nat.toDigits 10 status ++ [' '] ++ statusText

/-- JSON body of a route response: optional `success` flag, optional
`error` message, and whether the upstream data payload is relayed. -/
structure JsonBody where
  success? : Option Bool
  error? : Option Str
  dataPayload : Bool
deriving DecidableEq

inductive RouteResult where
  | json (status : Nat) (body : JsonBody)
  | fileBody (contentType : Str) (fileName : Str)
deriving DecidableEq

/-- Embeds `files/route.ts GET` (list). -/
def filesRouteGET (host user password path : Option Str)
    (o : UpstreamOutcome) : Option Str × RouteResult :=
  if falsy host || falsy user || falsy password then
    (none, .json 400 ⟨none, some missingFieldsMsg, false⟩)
  else
    let url := routeBaseUrl (host.getD []) (user.getD []) ++
      listSuffix (orRootPath path)
    match o with
    | .response s txt =>
      if 200 ≤ s ∧ s < 300 then (some url, .json 200 ⟨none, none, true⟩)
      else
        (some url, .json s
          ⟨none, some (routeFailMsg ("Failed to list files".toList) s txt),
            false⟩)
    | _ =>
      (some url, .json 500 ⟨none, some "Failed to list files".toList, false⟩)

/-- Embeds `files/route.ts POST` (upload); `fileName?` is
`(formData.get('file') as File)?.name`, `none` when the field is missing
(a present `File` object is always truthy). -/
def filesRoutePOST (host user password path : Option Str)
    (fileName? : Option Str) (o : UpstreamOutcome) :
    Option Str × RouteResult :=
  if falsy host || falsy user || falsy password || fileName?.isNone then
    (none, .json 400 ⟨none, some missingFieldsMsg, false⟩)
  else
    let url := routeBaseUrl (host.getD []) (user.getD []) ++
      normalizePath (orRootPath path) ++ fileName?.getD []
    match o with
    | .response s txt =>
      if 200 ≤ s ∧ s < 300 then
        (some url, .json 200 ⟨some true, none, false⟩)
      else
        (some url, .json s
          ⟨none, some (routeFailMsg ("Failed to upload file".toList) s txt),
            false⟩)
    | _ =>
      (some url, .json 500 ⟨none, some "Failed to upload file".toList, false⟩)

/-- Embeds `files/route.ts DELETE` (remove); here `path` is itself a
required field. -/
def filesRouteDELETE (host user password path : Option Str)
    (o : UpstreamOutcome) : Option Str × RouteResult :=
  if falsy host || falsy user || falsy password || falsy path then
    (none, .json 400 ⟨none, some missingFieldsMsg, false⟩)
  else
    let url := routeBaseUrl (host.getD []) (user.getD []) ++
      fileSuffix (path.getD [])
    match o with
    | .response s txt =>
      if 200 ≤ s ∧ s < 300 then
        (some url, .json 200 ⟨some true, none, false⟩)
      else
        (some url, .json s
          ⟨none, some (routeFailMsg ("Failed to delete file".toList) s txt),
            false⟩)
    | _ =>
      (some url, .json 500 ⟨none, some "Failed to delete file".toList, false⟩)

/-- Embeds `download/route.ts GET` (fetch); `upstreamContentType` is
`response.headers['content-type']` on success, relayed with an
`application/octet-stream` fallback. -/
def downloadRouteGET (host user password path : Option Str)
    (o : UpstreamOutcome) (upstreamContentType : Option Str) :
    Option Str × RouteResult :=
  if falsy host || falsy user || falsy password || falsy path then
    (none, .json 400 ⟨none, some missingFieldsMsg, false⟩)
  else
    let url := routeBaseUrl (host.getD []) (user.getD []) ++
      fileSuffix (path.getD [])
    match o with
    | .response s txt =>
      if 200 ≤ s ∧ s < 300 then
        (some url, .fileBody
          (match upstreamContentType with
            | some ct => if ct = [] then "application/octet-stream".toList else ct
            | none => "application/octet-stream".toList)
          (((path.getD []).splitOn '/').getLastD []))
      else
        (some url, .json s
          ⟨none,
            some (routeFailMsg ("Failed to download file".toList) s txt),
            false⟩)
    | _ =>
      (some url,
        .json 500 ⟨none, some "Failed to download file".toList, false⟩)

/-- Embeds the connection-test route `POST` handler. -/
def connectRoutePOST (host user password : Option Str)
    (o : UpstreamOutcome) : Option Str × RouteResult :=
  if falsy host || falsy user || falsy password then
    (none, .json 400 ⟨some false, some missingFieldsMsg, false⟩)
  else
    let url := routeBaseUrl (host.getD []) (user.getD [])
    match o with
    | .response s txt =>
      if 200 ≤ s ∧ s < 300 then
        (some url, .json 200 ⟨some (s == 200), none, false⟩)
      else
        (some url, .json 200
          ⟨some false,
            some (if s = 401 then authFailedMsg
                  else if s = 404 then zoneNotFoundMsg
                  else serverErrorMsg s txt), false⟩)
    | .noResponse =>
      (some url, .json 200 ⟨some false, some routeNetworkMsg, false⟩)
    | .setupError m =>
      (some url, .json 200
        ⟨some false, some (if m = [] then connectionFailedMsg else m), false⟩)

/-! ## C3: probe / connection-test error mapping -/

theorem falsy_some {s : Str} (h : s ≠ []) : falsy (some s) = false := by
  cases s with
  | nil => exact absurd rfl h
  | cons a t => rfl

theorem connMsg_eq_auth_iff (s : Nat) (txt : Str) :
    ((if s = 401 then authFailedMsg
      else if s = 404 then zoneNotFoundMsg
      else serverErrorMsg s txt) = authFailedMsg) ↔ s = 401 := by
  constructor
  · intro hEq
    by_contra h1
    rw [if_neg h1] at hEq
    by_cases h2 : s = 404
    · rw [if_pos h2] at hEq
      exact absurd hEq (by decide)
    · rw [if_neg h2] at hEq
      exact serverErrorMsg_ne_auth s txt hEq
  · intro h1
    rw [if_pos h1]

theorem connMsg_eq_zone_iff (s : Nat) (txt : Str) :
    ((if s = 401 then authFailedMsg
      else if s = 404 then zoneNotFoundMsg
      else serverErrorMsg s txt) = zoneNotFoundMsg) ↔ s = 404 := by
  constructor
  · intro hEq
    by_cases h1 : s = 401
    · rw [if_pos h1] at hEq
      exact absurd hEq (by decide)
    · rw [if_neg h1] at hEq
      by_contra h2
      rw [if_neg h2] at hEq
      exact serverErrorMsg_ne_zone s txt hEq
  · intro h2
    subst h2
    simp

theorem testConnection_error_auth_iff (s : Nat) (txt : Str) :
    (testConnection (.response s txt)).error? = some authFailedMsg ↔
      s = 401 := by
  by_cases h2xx : 200 ≤ s ∧ s < 300
  · simp only [testConnection, if_pos h2xx]
    constructor
    · intro h; simp at h
    · intro h; exfalso; omega
  · simp only [testConnection, if_neg h2xx, Option.some.injEq]
    exact connMsg_eq_auth_iff s txt

theorem testConnection_error_zone_iff (s : Nat) (txt : Str) :
    (testConnection (.response s txt)).error? = some zoneNotFoundMsg ↔
      s = 404 := by
  by_cases h2xx : 200 ≤ s ∧ s < 300
  · simp only [testConnection, if_pos h2xx]
    constructor
    · intro h; simp at h
    · intro h; exfalso; omega
  · simp only [testConnection, if_neg h2xx, Option.some.injEq]
    exact connMsg_eq_zone_iff s txt

theorem connectRoute_response_snd {h u pw : Str} (hh : h ≠ []) (hu : u ≠ [])
    (hp : pw ≠ []) (s : Nat) (txt : Str) :
    (connectRoutePOST (some h) (some u) (some pw) (.response s txt)).2 =
      (if 200 ≤ s ∧ s < 300 then
        RouteResult.json 200 ⟨some (s == 200), none, false⟩
      else
        RouteResult.json 200
          ⟨some false,
            some (if s = 401 then authFailedMsg
                  else if s = 404 then zoneNotFoundMsg
                  else serverErrorMsg s txt), false⟩) := by
  by_cases h2xx : 200 ≤ s ∧ s < 300 <;>
    simp [connectRoutePOST, falsy_some hh, falsy_some hu, falsy_some hp,
      h2xx]

theorem connectRoute_noResponse_snd {h u pw : Str} (hh : h ≠ [])
    (hu : u ≠ []) (hp : pw ≠ []) :
    (connectRoutePOST (some h) (some u) (some pw) .noResponse).2 =
      RouteResult.json 200 ⟨some false, some routeNetworkMsg, false⟩ := by
  simp only [connectRoutePOST, falsy_some hh, falsy_some hu, falsy_some hp,
    Bool.or_self, Bool.false_eq_true, if_false]

/-- C3: in both `BunnyAPI.testConnection` and the connection-test route,
the authentication-failure message is returned iff the upstream status is
401, the zone-not-found message iff it is 404, any other non-2xx status
yields the generic server-error message interpolating the raw status and
status text, and a no-response failure yields the network-error message. -/
theorem c3_probe_error_mapping (s : Nat) (txt : Str) (h u pw : Str)
    (hh : h ≠ []) (hu : u ≠ []) (hp : pw ≠ []) :
    ((testConnection (.response s txt)).error? = some authFailedMsg ↔
      s = 401) ∧
    ((testConnection (.response s txt)).error? = some zoneNotFoundMsg ↔
      s = 404) ∧
    (¬ (200 ≤ s ∧ s < 300) → s ≠ 401 → s ≠ 404 →
      (testConnection (.response s txt)).error? =
        some (serverErrorMsg s txt)) ∧
    (testConnection .noResponse).error? = some libNetworkMsg ∧
    ((connectRoutePOST (some h) (some u) (some pw) (.response s txt)).2 =
        .json 200 ⟨some false, some authFailedMsg, false⟩ ↔ s = 401) ∧
    ((connectRoutePOST (some h) (some u) (some pw) (.response s txt)).2 =
        .json 200 ⟨some false, some zoneNotFoundMsg, false⟩ ↔ s = 404) ∧
    (¬ (200 ≤ s ∧ s < 300) → s ≠ 401 → s ≠ 404 →
      (connectRoutePOST (some h) (some u) (some pw) (.response s txt)).2 =
        .json 200 ⟨some false, some (serverErrorMsg s txt), false⟩) ∧
    (connectRoutePOST (some h) (some u) (some pw) .noResponse).2 =
      .json 200 ⟨some false, some routeNetworkMsg, false⟩ := by
  refine ⟨testConnection_error_auth_iff s txt,
    testConnection_error_zone_iff s txt, ?_, rfl, ?_, ?_, ?_,
    connectRoute_noResponse_snd hh hu hp⟩
  · intro h2xx h1 h2
    simp only [testConnection, if_neg h2xx, if_neg h1, if_neg h2]
  · rw [connectRoute_response_snd hh hu hp s txt]
    by_cases h2xx : 200 ≤ s ∧ s < 300
    · simp only [if_pos h2xx]
      constructor
      · intro hEq
        exfalso
        have := (RouteResult.json.injEq _ _ _ _).mp hEq
        have := (JsonBody.mk.injEq _ _ _ _ _ _).mp this.2
        simp at this
      · intro h1; exfalso; omega
    · simp only [if_neg h2xx]
      constructor
      · intro hEq
        have h1 := (RouteResult.json.injEq _ _ _ _).mp hEq
        have h2 := (JsonBody.mk.injEq _ _ _ _ _ _).mp h1.2
        exact (connMsg_eq_auth_iff s txt).mp (Option.some.inj h2.2.1)
      · intro h1
        have := (connMsg_eq_auth_iff s txt).mpr h1
        rw [this]
  · rw [connectRoute_response_snd hh hu hp s txt]
    by_cases h2xx : 200 ≤ s ∧ s < 300
    · simp only [if_pos h2xx]
      constructor
      · intro hEq
        exfalso
        have := (RouteResult.json.injEq _ _ _ _).mp hEq
        have := (JsonBody.mk.injEq _ _ _ _ _ _).mp this.2
        simp at this
      · intro h1; exfalso; omega
    · simp only [if_neg h2xx]
      constructor
      · intro hEq
        have h1 := (RouteResult.json.injEq _ _ _ _).mp hEq
        have h2 := (JsonBody.mk.injEq _ _ _ _ _ _).mp h1.2
        exact (connMsg_eq_zone_iff s txt).mp (Option.some.inj h2.2.1)
      · intro h1
        have := (connMsg_eq_zone_iff s txt).mpr h1
        rw [this]
  · intro h2xx h1 h2
    rw [connectRoute_response_snd hh hu hp s txt]
    simp only [if_neg h2xx, if_neg h1, if_neg h2]

/-- Witness for C3 at upstream statuses 401 and 500. -/
theorem c3_witness :
    (testConnection (.response 401 [])).error? = some authFailedMsg ∧
    (testConnection
        (.response 500 "Internal Server Error".toList)).error? =
      some (serverErrorMsg 500 "Internal Server Error".toList) ∧
    (connectRoutePOST (some "h".toList) (some "z".toList) (some "k".toList)
        .noResponse).2 =
      .json 200 ⟨some false, some routeNetworkMsg, false⟩ :=
  ⟨(c3_probe_error_mapping 401 [] "h".toList "z".toList "k".toList
      (by decide) (by decide) (by decide)).1.mpr rfl,
   (c3_probe_error_mapping 500 "Internal Server Error".toList "h".toList
      "z".toList "k".toList (by decide) (by decide) (by decide)).2.2.1
      (by omega) (by omega) (by omega),
   (c3_probe_error_mapping 500 [] "h".toList "z".toList "k".toList
      (by decide) (by decide) (by decide)).2.2.2.2.2.2.2⟩

/-! ## C9: success is reported only for status 200 -/

/-- C9: both connection tests report `success = true` exactly for upstream
status 200; any other 2xx response (e.g. 204) yields `success = false`,
and the route variant then attaches no error message. -/
theorem c9_success_only_200 (s : Nat) (txt : Str) (h u pw : Str)
    (hh : h ≠ []) (hu : u ≠ []) (hp : pw ≠ []) :
    ((testConnection (.response s txt)).success = true ↔ s = 200) ∧
    (∀ o : UpstreamOutcome, (testConnection o).success = true →
      ∃ t, o = .response 200 t) ∧
    (200 ≤ s → s < 300 → s ≠ 200 →
      (connectRoutePOST (some h) (some u) (some pw) (.response s txt)).2 =
        .json 200 ⟨some false, none, false⟩) ∧
    (connectRoutePOST (some h) (some u) (some pw) (.response 204 txt)).2 =
      .json 200 ⟨some false, none, false⟩ := by
  have hsucc : ∀ (s' : Nat) (txt' : Str),
      (testConnection (.response s' txt')).success = true ↔ s' = 200 := by
    intro s' txt'
    by_cases h2xx : 200 ≤ s' ∧ s' < 300
    · simp [testConnection, h2xx]
    · simp only [testConnection, if_neg h2xx]
      constructor
      · intro hb; simp at hb
      · intro hb; exfalso; omega
  have hroute : ∀ (s' : Nat) (txt' : Str), 200 ≤ s' → s' < 300 → s' ≠ 200 →
      (connectRoutePOST (some h) (some u) (some pw) (.response s' txt')).2 =
        .json 200 ⟨some false, none, false⟩ := by
    intro s' txt' hlo hhi hne
    rw [connectRoute_response_snd hh hu hp s' txt']
    rw [if_pos ⟨hlo, hhi⟩]
    have : (s' == 200) = false := by simp [hne]
    rw [this]
  refine ⟨hsucc s txt, ?_, hroute s txt, hroute 204 txt (by omega) (by omega)
    (by omega)⟩
  intro o hsu
  cases o with
  | response s' txt' =>
    exact ⟨txt', by rw [(hsucc s' txt').mp hsu]⟩
  | noResponse => simp [testConnection] at hsu
  | setupError m => simp [testConnection] at hsu

/-- Witness for C9 at statuses 200 and 204. -/
theorem c9_witness :
    (testConnection (.response 200 [])).success = true ∧
    (connectRoutePOST (some "h".toList) (some "z".toList) (some "k".toList)
        (.response 204 [])).2 = .json 200 ⟨some false, none, false⟩ :=
  ⟨(c9_success_only_200 200 [] "h".toList "z".toList "k".toList
      (by decide) (by decide) (by decide)).1.mpr rfl,
   (c9_success_only_200 204 [] "h".toList "z".toList "k".toList
      (by decide) (by decide) (by decide)).2.2.2⟩

/-! ## C8: validation happens before any upstream call -/

/-- C8: whenever a required field of a proxy request is missing or empty,
every route answers HTTP 400 with `Missing required fields`, requests no
upstream URL, and the result is the same for every upstream outcome. -/
theorem c8_validation_before_upstream
    (host user password path fileName? ct : Option Str)
    (o : UpstreamOutcome) :
    ((falsy host || falsy user || falsy password) = true →
      filesRouteGET host user password path o =
        (none, .json 400 ⟨none, some missingFieldsMsg, false⟩)) ∧
    ((falsy host || falsy user || falsy password || fileName?.isNone) = true →
      filesRoutePOST host user password path fileName? o =
        (none, .json 400 ⟨none, some missingFieldsMsg, false⟩)) ∧
    ((falsy host || falsy user || falsy password || falsy path) = true →
      filesRouteDELETE host user password path o =
        (none, .json 400 ⟨none, some missingFieldsMsg, false⟩)) ∧
    ((falsy host || falsy user || falsy password || falsy path) = true →
      downloadRouteGET host user password path o ct =
        (none, .json 400 ⟨none, some missingFieldsMsg, false⟩)) ∧
    ((falsy host || falsy user || falsy password) = true →
      connectRoutePOST host user password o =
        (none, .json 400 ⟨some false, some missingFieldsMsg, false⟩)) := by
  refine ⟨fun hc => ?_, fun hc => ?_, fun hc => ?_, fun hc => ?_,
    fun hc => ?_⟩
  · simp [filesRouteGET, hc]
  · simp [filesRoutePOST, hc]
  · simp [filesRouteDELETE, hc]
  · simp [downloadRouteGET, hc]
  · simp [connectRoutePOST, hc]

/-- Witness for C8: an empty password field short-circuits the list route
to a 400 with no upstream request, even when the upstream would answer
200. -/
theorem c8_witness :
    filesRouteGET (some "h".toList) (some "z".toList) (some [])
        (some "/".toList) (.response 200 []) =
      (none, .json 400 ⟨none, some missingFieldsMsg, false⟩) :=
  (c8_validation_before_upstream (some "h".toList) (some "z".toList)
    (some []) (some "/".toList) none none (.response 200 [])).1 (by decide)

/-! ## C7: upstream status propagation in the proxy routes -/

theorem filesRouteGET_err {h u pw : Str} (hh : h ≠ []) (hu : u ≠ [])
    (hp : pw ≠ []) (p : Option Str) (s : Nat) (txt : Str)
    (hs : ¬ (200 ≤ s ∧ s < 300)) :
    (filesRouteGET (some h) (some u) (some pw) p (.response s txt)).2 =
      .json s
        ⟨none, some (routeFailMsg ("Failed to list files".toList) s txt),
          false⟩ := by
  simp [filesRouteGET, falsy_some hh, falsy_some hu, falsy_some hp, hs]

theorem filesRoutePOST_err {h u pw : Str} (hh : h ≠ []) (hu : u ≠ [])
    (hp : pw ≠ []) (p : Option Str) (fn : Str) (s : Nat) (txt : Str)
    (hs : ¬ (200 ≤ s ∧ s < 300)) :
    (filesRoutePOST (some h) (some u) (some pw) p (some fn)
        (.response s txt)).2 =
      .json s
        ⟨none, some (routeFailMsg ("Failed to upload file".toList) s txt),
          false⟩ := by
  simp [filesRoutePOST, falsy_some hh, falsy_some hu, falsy_some hp, hs]

theorem filesRouteDELETE_err {h u pw p : Str} (hh : h ≠ []) (hu : u ≠ [])
    (hp : pw ≠ []) (hpath : p ≠ []) (s : Nat) (txt : Str)
    (hs : ¬ (200 ≤ s ∧ s < 300)) :
    (filesRouteDELETE (some h) (some u) (some pw) (some p)
        (.response s txt)).2 =
      .json s
        ⟨none, some (routeFailMsg ("Failed to delete file".toList) s txt),
          false⟩ := by
  simp [filesRouteDELETE, falsy_some hh, falsy_some hu, falsy_some hp,
    falsy_some hpath, hs]

theorem downloadRouteGET_err {h u pw p : Str} (hh : h ≠ []) (hu : u ≠ [])
    (hp : pw ≠ []) (hpath : p ≠ []) (s : Nat) (txt : Str) (ct : Option Str)
    (hs : ¬ (200 ≤ s ∧ s < 300)) :
    (downloadRouteGET (some h) (some u) (some pw) (some p)
        (.response s txt) ct).2 =
      .json s
        ⟨none,
          some (routeFailMsg ("Failed to download file".toList) s txt),
          false⟩ := by
  simp [downloadRouteGET, falsy_some hh, falsy_some hu, falsy_some hp,
    falsy_some hpath, hs]

/-- C7: for every upstream non-2xx response, the list, store, remove and
fetch routes answer with exactly the upstream status and interpolate the
upstream status text into the error message. -/
theorem c7_upstream_status_propagated (h u pw p fn : Str)
    (hh : h ≠ []) (hu : u ≠ []) (hp : pw ≠ []) (hpath : p ≠ [])
    (s : Nat) (txt : Str) (hs : ¬ (200 ≤ s ∧ s < 300)) (ct : Option Str) :
    (filesRouteGET (some h) (some u) (some pw) (some p)
        (.response s txt)).2 =
      .json s
        ⟨none, some (routeFailMsg ("Failed to list files".toList) s txt),
          false⟩ ∧
    (filesRoutePOST (some h) (some u) (some pw) (some p) (some fn)
        (.response s txt)).2 =
      .json s
        ⟨none, some (routeFailMsg ("Failed to upload file".toList) s txt),
          false⟩ ∧
    (filesRouteDELETE (some h) (some u) (some pw) (some p)
        (.response s txt)).2 =
      .json s
        ⟨none, some (routeFailMsg ("Failed to delete file".toList) s txt),
          false⟩ ∧
    (downloadRouteGET (some h) (some u) (some pw) (some p)
        (.response s txt) ct).2 =
      .json s
        ⟨none,
          some (routeFailMsg ("Failed to download file".toList) s txt),
          false⟩ :=
  ⟨filesRouteGET_err hh hu hp (some p) s txt hs,
   filesRoutePOST_err hh hu hp (some p) fn s txt hs,
   filesRouteDELETE_err hh hu hp hpath s txt hs,
   downloadRouteGET_err hh hu hp hpath s txt ct hs⟩

/-- Witness for C7 at a forced 403 and a forced 500 on the list route. -/
theorem c7_witness :
    (filesRouteGET (some "h".toList) (some "z".toList) (some "k".toList)
        (some "/".toList) (.response 403 "Forbidden".toList)).2 =
      .json 403
        ⟨none,
          some (routeFailMsg ("Failed to list files".toList) 403
            "Forbidden".toList), false⟩ ∧
    (downloadRouteGET (some "h".toList) (some "z".toList) (some "k".toList)
        (some "f.txt".toList)
        (.response 500 "Internal Server Error".toList) none).2 =
      .json 500
        ⟨none,
          some (routeFailMsg ("Failed to download file".toList) 500
            "Internal Server Error".toList), false⟩ :=
  ⟨(c7_upstream_status_propagated "h".toList "z".toList "k".toList
      "/".toList "f".toList (by decide) (by decide) (by decide) (by decide)
      403 "Forbidden".toList (by omega) none).1,
   (c7_upstream_status_propagated "h".toList "z".toList "k".toList
      "f.txt".toList "f".toList (by decide) (by decide) (by decide)
      (by decide) 500 "Internal Server Error".toList (by omega) none).2.2.2⟩

/-! ## C6: object paths round-trip unchanged -/

theorem fileSuffix_cases (p : Str) :
    fileSuffix p = p ∨ (p.head? = some '/' ∧ fileSuffix p = p.tail) := by
  by_cases hh : p.head? = some '/'
  · right; exact ⟨hh, by simp [fileSuffix, hh]⟩
  · left; simp [fileSuffix, hh]

theorem downloadRouteGET_url {h u pw p : Str} (hh : h ≠ []) (hu : u ≠ [])
    (hp : pw ≠ []) (hpath : p ≠ []) (o : UpstreamOutcome)
    (ct : Option Str) :
    (downloadRouteGET (some h) (some u) (some pw) (some p) o ct).1 =
      some (routeBaseUrl h u ++ fileSuffix p) := by
  cases o with
  | response s txt =>
    by_cases h2xx : 200 ≤ s ∧ s < 300 <;>
      simp [downloadRouteGET, falsy_some hh, falsy_some hu, falsy_some hp,
        falsy_some hpath, h2xx]
  | noResponse =>
    simp [downloadRouteGET, falsy_some hh, falsy_some hu, falsy_some hp,
      falsy_some hpath]
  | setupError m =>
    simp [downloadRouteGET, falsy_some hh, falsy_some hu, falsy_some hp,
      falsy_some hpath]

theorem filesRouteDELETE_url {h u pw p : Str} (hh : h ≠ []) (hu : u ≠ [])
    (hp : pw ≠ []) (hpath : p ≠ []) (o : UpstreamOutcome) :
    (filesRouteDELETE (some h) (some u) (some pw) (some p) o).1 =
      some (routeBaseUrl h u ++ fileSuffix p) := by
  cases o with
  | response s txt =>
    by_cases h2xx : 200 ≤ s ∧ s < 300 <;>
      simp [filesRouteDELETE, falsy_some hh, falsy_some hu, falsy_some hp,
        falsy_some hpath, h2xx]
  | noResponse =>
    simp [filesRouteDELETE, falsy_some hh, falsy_some hu, falsy_some hp,
      falsy_some hpath]
  | setupError m =>
    simp [filesRouteDELETE, falsy_some hh, falsy_some hu, falsy_some hp,
      falsy_some hpath]

/-- C6: download and delete address the upstream object with exactly the
given path minus at most one leading `'/'`: no trailing slash is appended
and no character is rewritten, so a listed object name (which carries no
leading slash) is used verbatim as the URL suffix. -/
theorem c6_object_path_roundtrip :
    (∀ p : Str, fileSuffix p = p ∨
      (p.head? = some '/' ∧ fileSuffix p = p.tail)) ∧
    (∀ (c : BunnyConnection) (p : Str),
      libDownloadUrl c p = getBaseUrl c ++ fileSuffix p ∧
      libDeleteUrl c p = getBaseUrl c ++ fileSuffix p) ∧
    (∀ (c : BunnyConnection) (p : Str), p.head? ≠ some '/' →
      libDownloadUrl c p = getBaseUrl c ++ p ∧
      libDeleteUrl c p = getBaseUrl c ++ p) ∧
    (∀ (h u pw p : Str) (o : UpstreamOutcome) (ct : Option Str),
      h ≠ [] → u ≠ [] → pw ≠ [] → p ≠ [] → p.head? ≠ some '/' →
      (downloadRouteGET (some h) (some u) (some pw) (some p) o ct).1 =
        some (routeBaseUrl h u ++ p) ∧
      (filesRouteDELETE (some h) (some u) (some pw) (some p) o).1 =
        some (routeBaseUrl h u ++ p)) := by
  have hid : ∀ p : Str, p.head? ≠ some '/' → fileSuffix p = p := by
    intro p hp
    simp [fileSuffix, hp]
  refine ⟨fileSuffix_cases, fun c p => ⟨rfl, rfl⟩, fun c p hp => ?_,
    fun h u pw p o ct hh hu hpw hpath hp => ?_⟩
  · constructor
    · show getBaseUrl c ++ fileSuffix p = getBaseUrl c ++ p
      rw [hid p hp]
    · show getBaseUrl c ++ fileSuffix p = getBaseUrl c ++ p
      rw [hid p hp]
  · constructor
    · rw [downloadRouteGET_url hh hu hpw hpath o ct, hid p hp]
    · rw [filesRouteDELETE_url hh hu hpw hpath o, hid p hp]

/-- Witness for C6 at the object name `"docs/readme.md"`. -/
theorem c6_witness :
    (downloadRouteGET (some "h".toList) (some "z".toList) (some "k".toList)
        (some "docs/readme.md".toList) (.response 200 []) none).1 =
      some (routeBaseUrl "h".toList "z".toList ++ "docs/readme.md".toList) :=
  (c6_object_path_roundtrip.2.2.2 "h".toList "z".toList "k".toList
    "docs/readme.md".toList (.response 200 []) none (by decide) (by decide)
    (by decide) (by decide) (by decide)).1

/-! ## Image transform pipeline (`BunnyAPI.optimizeImage`)

Pixel quantities are modelled as exact rationals. -/

structure CropRect where
  x : ℚ
  y : ℚ
  width : ℚ
  height : ℚ
deriving DecidableEq

inductive ImageFormat where
  | webp
  | jpeg
  | png
  | avif
deriving DecidableEq

/-- Embeds the `ImageOptimizationOptions` interface of `types/bunny.ts`;
`none` is an absent (`undefined`) field. -/
structure ImageOptimizationOptions where
  width : Option ℚ
  height : Option ℚ
  quality : Option ℚ
  format : Option ImageFormat
  crop : Option CropRect
deriving DecidableEq

structure SourceImage where
  width : ℚ
  height : ℚ
deriving DecidableEq

/-- Arguments of the `ctx.drawImage` call: source rectangle and
destination rectangle. -/
structure DrawCall where
  sx : ℚ
  sy : ℚ
  sw : ℚ
  sh : ℚ
  dx : ℚ
  dy : ℚ
  dw : ℚ
  dh : ℚ
deriving DecidableEq

/-- What `optimizeImage` hands to the canvas and the encoder: canvas
dimensions, the draw call, and the `canvas.toBlob` format and quality
arguments. -/
structure EncodeCall where
  canvasWidth : ℚ
  canvasHeight : ℚ
  draw : DrawCall
  mime : ImageFormat
  codecQuality : ℚ
deriving DecidableEq

/-- Embeds `BunnyAPI.optimizeImage` after the image has loaded:
`const { width = img.width, height = img.height, quality = 0.8,
format = 'webp' } = options` (a destructuring default fires only on an
absent field), the canvas sizing, the crop-dependent `drawImage` call
(without a crop the whole source is drawn into the destination
rectangle), and the `canvas.toBlob(..., image/format, quality)` call —
the quality is passed to the encoder as-is. -/
def optimizeImagePlan (img : SourceImage)
    (options : ImageOptimizationOptions) : EncodeCall :=
  let width := options.width.getD img.width
  let height := options.height.getD img.height
  let quality := options.quality.getD (4 / 5)
  let format := options.format.getD .webp
  { canvasWidth := width
    canvasHeight := height
    draw :=
      match options.crop with
      | some c => ⟨c.x, c.y, c.width, c.height, 0, 0, width, height⟩
      | none => ⟨0, 0, img.width, img.height, 0, 0, width, height⟩
    mime := format
    codecQuality := quality }

/-- Embeds the initial options state of the `ImageOptimizer` component:
`{ width: undefined, height: undefined, quality: 80, format: 'webp',
crop: undefined }`. -/
def initialOptimizerOptions : ImageOptimizationOptions :=
  { width := none, height := none, quality := some 80,
    format := some .webp, crop := none }

/-- C4: output canvas dimensions default independently per axis to the
source dimensions; width 100 with a 50×50 crop on a 200×200 source gives
a 100×200 output. -/
theorem c4_independent_axis_dims :
    (∀ (img : SourceImage) (opts : ImageOptimizationOptions),
      (optimizeImagePlan img opts).canvasWidth = opts.width.getD img.width ∧
      (optimizeImagePlan img opts).canvasHeight =
        opts.height.getD img.height) ∧
    (optimizeImagePlan ⟨200, 200⟩
        { width := some 100, height := none, quality := none,
          format := none, crop := some ⟨0, 0, 50, 50⟩ }).canvasWidth =
      100 ∧
    (optimizeImagePlan ⟨200, 200⟩
        { width := some 100, height := none, quality := none,
          format := none, crop := some ⟨0, 0, 50, 50⟩ }).canvasHeight =
      200 :=
  ⟨fun img opts => ⟨rfl, rfl⟩, rfl, rfl⟩

/-- C2 (code bug): the quality option is handed to the encoder undivided —
for the component's default options (`quality: 80`) the encoder receives
80, not 80/100; only an absent quality yields the 0–1-scale value 0.8,
via the destructuring default. -/
theorem c2_quality_not_divided :
    (optimizeImagePlan ⟨200, 100⟩ initialOptimizerOptions).codecQuality =
      80 ∧
    ¬ (optimizeImagePlan ⟨200, 100⟩ initialOptimizerOptions).codecQuality =
      80 / 100 ∧
    (optimizeImagePlan ⟨200, 100⟩
        { initialOptimizerOptions with quality := none }).codecQuality =
      4 / 5 := by
  refine ⟨rfl, ?_, rfl⟩
  have h80 : (optimizeImagePlan ⟨200, 100⟩
      initialOptimizerOptions).codecQuality = 80 := rfl
  rw [h80]
  norm_num

/-! ## C5: aspect-ratio helper (`ImageOptimizer.handleAspectRatioChange`) -/

/-- Embeds the crop computed by `handleAspectRatioChange` for a numeric
target ratio `w/h`:
`imageAspect = W/H`, `cropAspect = w/h`; if `imageAspect > cropAspect`
then `cropHeight = min(H, W / cropAspect)`, `cropWidth = cropHeight *
cropAspect`, else `cropWidth = min(W, H * cropAspect)`, `cropHeight =
cropWidth / cropAspect`; centered at `((W - cropWidth) / 2,
(H - cropHeight) / 2)`. -/
def handleAspectRatioCrop (imgW imgH w h : ℚ) : CropRect :=
  let imageAspect := imgW / imgH
  let cropAspect := w / h
  if imageAspect > cropAspect then
    let cropHeight := min imgH (imgW / cropAspect)
    let cropWidth := cropHeight * cropAspect
    ⟨(imgW - cropWidth) / 2, (imgH - cropHeight) / 2, cropWidth,
      cropHeight⟩
  else
    let cropWidth := min imgW (imgH * cropAspect)
    let cropHeight := cropWidth / cropAspect
    ⟨(imgW - cropWidth) / 2, (imgH - cropHeight) / 2, cropWidth,
      cropHeight⟩

/-- C5: for positive source dimensions and a positive target ratio the
helper returns the maximal centered inscribed rectangle of that ratio
(the `min` in the code is never the non-trivial arm), and on a 400×200
source with ratio 1:1 it returns height 200, width 200, x 100, y 0. -/
theorem c5_aspect_ratio_helper (W H w h : ℚ) (hW : 0 < W) (hH : 0 < H)
    (hw : 0 < w) (hh : 0 < h) :
    (W / H > w / h →
      (handleAspectRatioCrop W H w h).height = H ∧
      (handleAspectRatioCrop W H w h).width = H * (w / h)) ∧
    (¬ W / H > w / h →
      (handleAspectRatioCrop W H w h).width = W ∧
      (handleAspectRatioCrop W H w h).height = W / (w / h)) ∧
    (handleAspectRatioCrop W H w h).x =
      (W - (handleAspectRatioCrop W H w h).width) / 2 ∧
    (handleAspectRatioCrop W H w h).y =
      (H - (handleAspectRatioCrop W H w h).height) / 2 ∧
    handleAspectRatioCrop 400 200 1 1 = ⟨100, 0, 200, 200⟩ := by
  have hca : 0 < w / h := div_pos hw hh
  have hconc : handleAspectRatioCrop 400 200 1 1 =
      ⟨100, 0, 200, 200⟩ := by
    simp only [handleAspectRatioCrop]
    norm_num
  by_cases hgt : W / H > w / h
  · have hkey : H * (w / h) ≤ W := by
      rw [gt_iff_lt, div_lt_div_iff hh hH] at hgt
      rw [← mul_div_assoc, div_le_iff hh]
      nlinarith
    have hmin : H ≤ W / (w / h) := (le_div_iff hca).mpr hkey
    refine ⟨fun _ => ?_, fun hc => absurd hgt hc, ?_, ?_, hconc⟩
    · constructor
      · simp [handleAspectRatioCrop, hgt, min_eq_left hmin]
      · simp [handleAspectRatioCrop, hgt, min_eq_left hmin]
    · simp [handleAspectRatioCrop, hgt]
    · simp [handleAspectRatioCrop, hgt]
  · have hle : W / H ≤ w / h := not_lt.mp hgt
    have hkey : W ≤ H * (w / h) := by
      rw [div_le_div_iff hH hh] at hle
      rw [← mul_div_assoc, le_div_iff hh]
      nlinarith
    refine ⟨fun hc => absurd hc hgt, fun _ => ?_, ?_, ?_, hconc⟩
    · constructor
      · simp [handleAspectRatioCrop, hgt, min_eq_left hkey]
      · simp [handleAspectRatioCrop, hgt, min_eq_left hkey]
    · simp [handleAspectRatioCrop, hgt]
    · simp [handleAspectRatioCrop, hgt]

/-- Witness for C5 on the 400×200 source with target ratio 1:1. -/
theorem c5_witness :
    (handleAspectRatioCrop 400 200 1 1).height = 200 ∧
    (handleAspectRatioCrop 400 200 1 1).width = 200 * (1 / 1) :=
  (c5_aspect_ratio_helper 400 200 1 1 (by norm_num) (by norm_num)
    (by norm_num) (by norm_num)).1 (by norm_num)

/-! ## C10: the constructor snapshots the connection

JavaScript object aliasing is modelled by a small heap: a list of
connection records addressed by index.  `{ ...connection }` allocates a
fresh cell holding a copy of the referenced record. -/

abbrev ConnHeap := List BunnyConnection

def heapGet : ConnHeap → Nat → Option BunnyConnection
  | [], _ => none
  | c :: _, 0 => some c
  | _ :: t, n + 1 => heapGet t n

/-- In-place mutation of the object at reference `r` (what a caller does
when it assigns to a field of its connection object). -/
def heapSet : ConnHeap → Nat → BunnyConnection → ConnHeap
  | [], _, _ => []
  | _ :: t, 0, c => c :: t
  | x :: t, n + 1, c => x :: heapSet t n c

/-- Embeds `constructor(connection) { this.connection = { ...connection } }`:
the spread copies the referenced record into a fresh cell and the instance
keeps a reference to the copy. -/
def constructBunnyAPI (hp : ConnHeap) (r : Nat) : ConnHeap × Nat :=
  match heapGet hp r with
  | some c => (hp ++ [c], hp.length)
  | none => (hp, r)

/-- Runs `BunnyAPI.getBaseUrl` through the instance's reference. -/
def getBaseUrlAt (hp : ConnHeap) (r : Nat) : Option Str :=
  (heapGet hp r).map getBaseUrl

/-- Runs `BunnyAPI.getHeaders` through the instance's reference. -/
def getHeadersAt (hp : ConnHeap) (r : Nat) : Option Headers :=
  (heapGet hp r).map getHeaders

theorem heapGet_heapSet_ne :
    ∀ (hp : ConnHeap) (i j : Nat) (c : BunnyConnection), i ≠ j →
      heapGet (heapSet hp i c) j = heapGet hp j
  | [], _, _, _, _ => rfl
  | _ :: _, 0, 0, _, hne => absurd rfl hne
  | _ :: _, 0, _ + 1, _, _ => rfl
  | _ :: _, _ + 1, 0, _, _ => rfl
  | _ :: t, i + 1, j + 1, c, hne =>
    heapGet_heapSet_ne t i j c (fun h => hne (by rw [h]))

theorem heapGet_append_len :
    ∀ (hp : ConnHeap) (c : BunnyConnection),
      heapGet (hp ++ [c]) hp.length = some c
  | [], _ => rfl
  | _ :: t, c => heapGet_append_len t c

theorem heapGet_lt :
    ∀ (hp : ConnHeap) (r : Nat), r < hp.length →
      ∃ c, heapGet hp r = some c
  | [], _, h => absurd h (by simp)
  | x :: _, 0, _ => ⟨x, rfl⟩
  | _ :: t, r + 1, h => heapGet_lt t r (Nat.lt_of_succ_lt_succ h)

/-- C10: the constructor stores a copy of the connection, so mutating the
caller's original object afterwards changes neither the base URL nor the
headers computed through the instance, which keep reflecting the record as
it was at construction. -/
theorem c10_constructor_snapshot (hp : ConnHeap) (r : Nat)
    (hr : r < hp.length) (c' : BunnyConnection) :
    getBaseUrlAt (heapSet (constructBunnyAPI hp r).1 r c')
        (constructBunnyAPI hp r).2 =
      getBaseUrlAt (constructBunnyAPI hp r).1 (constructBunnyAPI hp r).2 ∧
    getHeadersAt (heapSet (constructBunnyAPI hp r).1 r c')
        (constructBunnyAPI hp r).2 =
      getHeadersAt (constructBunnyAPI hp r).1 (constructBunnyAPI hp r).2 ∧
    getBaseUrlAt (constructBunnyAPI hp r).1 (constructBunnyAPI hp r).2 =
      (heapGet hp r).map getBaseUrl ∧
    getHeadersAt (constructBunnyAPI hp r).1 (constructBunnyAPI hp r).2 =
      (heapGet hp r).map getHeaders := by
  obtain ⟨c, hc⟩ := heapGet_lt hp r hr
  have hcon : constructBunnyAPI hp r = (hp ++ [c], hp.length) := by
    simp [constructBunnyAPI, hc]
  have hrne : r ≠ hp.length := Nat.ne_of_lt hr
  rw [hcon]
  have hset : heapGet (heapSet (hp ++ [c]) r c') hp.length =
      heapGet (hp ++ [c]) hp.length :=
    heapGet_heapSet_ne (hp ++ [c]) r hp.length c' hrne
  refine ⟨?_, ?_, ?_, ?_⟩
  · simp only [getBaseUrlAt, hset]
  · simp only [getHeadersAt, hset]
  · simp only [getBaseUrlAt, heapGet_append_len, hc, Option.map_some]
  · simp only [getHeadersAt, heapGet_append_len, hc, Option.map_some]

/-- Witness for C10 on a one-cell heap: overwriting the caller's object
with different credentials leaves the instance's base URL untouched. -/
theorem c10_witness :
    getBaseUrlAt
        (heapSet (constructBunnyAPI
            [⟨"h".toList, "z".toList, "k".toList, 443, [], none, none⟩]
            0).1
          0 ⟨"evil".toList, "e".toList, "e".toList, 80, [], none, none⟩)
        (constructBunnyAPI
          [⟨"h".toList, "z".toList, "k".toList, 443, [], none, none⟩]
          0).2 =
      getBaseUrlAt
        (constructBunnyAPI
          [⟨"h".toList, "z".toList, "k".toList, 443, [], none, none⟩]
          0).1
        (constructBunnyAPI
          [⟨"h".toList, "z".toList, "k".toList, 443, [], none, none⟩]
          0).2 :=
  (c10_constructor_snapshot
    [⟨"h".toList, "z".toList, "k".toList, 443, [], none, none⟩] 0
    (by simp)
    ⟨"evil".toList, "e".toList, "e".toList, 80, [], none, none⟩).1

end CloudOS
